import Mathlib

/-!
A shallow embedding of the draft-content client of the
draft-content-suggestions service: package `commons` (ValidateEndpoint) and
package `draft` (NewContentAPI, draftContentAPI.FetchDraftContent,
draftContentAPI.IsGTG, draftContentAPI.Endpoint, draftContentAPI.IsValid),
with proofs about their behaviour.

Effectful Go library calls (`http.NewRequest`, `http.Client.Do`,
`ioutil.ReadAll`, `url.ParseRequestURI`) are modelled as pure oracles that
are passed to the embedded functions; everything else is translated line by
line from the Go source.
-/

namespace Commons

/-- Result of Go `url.ParseRequestURI`, abstracted as a pure oracle: `true`
when the string parses as a request URI, `false` when parsing fails. -/
def ParseOracle : Type := String → Bool

/-- Errors returned by `commons.ValidateEndpoint`; each constructor records
the endpoint string that the Go code interpolates into the corresponding
`errors.New` message ("Missing scheme in endpoint: ..." and
"Invalid endpoint configuration: ... for: ..."). -/
inductive ValidationError where
  | missingScheme (endpoint : String)
  | invalidEndpoint (endpoint : String)
  deriving DecidableEq

/-- Embedding of `commons.ValidateEndpoint`: the endpoint must carry an
`http://` or `https://` scheme (Go `strings.HasPrefix`, modelled on the
underlying character lists) and must parse as a request URI; `none` models
the Go function returning a nil error. It is a pure function of the endpoint
string and the parse oracle: no network oracle is consulted. -/
def ValidateEndpoint (parseOk : ParseOracle) (endpoint : String) :
    Option ValidationError :=
  if !("http://".data.isPrefixOf endpoint.data) &&
     !("https://".data.isPrefixOf endpoint.data) then
    some (ValidationError.missingScheme endpoint)
  else if parseOk endpoint then
    none
  else
    some (ValidationError.invalidEndpoint endpoint)

end Commons

namespace Draft

/-- Go `[]byte`: a byte is modelled as a plain natural number, since no
property proved here depends on the 0..255 bound. -/
abbrev Bytes := List Nat

/-- An HTTP response as the client observes it: the status code and the
outcome of `ioutil.ReadAll` on the body. `ReadAll` returns the bytes read so
far together with an optional error, so on error the bytes component may be
a partial body. -/
structure HttpResponse (ε : Type) where
  statusCode : Nat
  bodyRead : Bytes × Option ε

/-- The effectful HTTP world as a pure oracle. `newRequest url` models
`http.NewRequest(http.MethodGet, url, nil)`, whose error case is a URL-parse
failure; `doGet url` models `httpClient.Do` on that request under the
request context, whose error case covers transport failures (DNS errors,
connection refusal, context cancellation). -/
structure HttpEnv (ε : Type) where
  newRequest : String → Except ε Unit
  doGet : String → Except ε (HttpResponse ε)

/-- The `draftContentAPI` struct of package `draft`; the `httpClient` field
is modelled by the `HttpEnv` oracle that each method receives. -/
structure draftContentAPI where
  endpoint : String
  healthEndpoint : String
  deriving DecidableEq

/-- Go `strings.HasSuffix(s, "/")`: Go strings are byte slices and `/` is a
single byte, so this holds exactly when the last character is a slash. -/
def hasSuffixSlash (s : String) : Bool := s.data.getLast? == some '/'

/-- The endpoint normalisation at the top of `NewContentAPI`: append a
trailing slash when one is missing. -/
def normalizeEndpoint (endpoint : String) : String :=
  if hasSuffixSlash endpoint then endpoint else endpoint ++ "/"

/-- Embedding of `draftContentAPI.IsValid`: delegate to
`commons.ValidateEndpoint` on the stored endpoint. -/
def draftContentAPI.IsValid (d : draftContentAPI)
    (parseOk : Commons.ParseOracle) : Option Commons.ValidationError :=
  Commons.ValidateEndpoint parseOk d.endpoint

/-- Embedding of `draft.NewContentAPI`: normalise the endpoint, build the
client, call `IsValid`; on a validation error return the error and no
client. The construction consults no HTTP oracle: validation is pure and
happens here, not at first use. -/
def NewContentAPI (parseOk : Commons.ParseOracle)
    (endpoint healthEndpoint : String) :
    Except Commons.ValidationError draftContentAPI :=
  let contentAPI : draftContentAPI :=
    { endpoint := normalizeEndpoint endpoint, healthEndpoint := healthEndpoint }
  match contentAPI.IsValid parseOk with
  | some err => Except.error err
  | none => Except.ok contentAPI

/-- Embedding of `draftContentAPI.Endpoint`. -/
def draftContentAPI.Endpoint (d : draftContentAPI) : String := d.endpoint

/-- The request URL built by `FetchDraftContent`: the stored endpoint
concatenated with the uuid. -/
def draftContentAPI.fetchRequestPath (d : draftContentAPI) (uuid : String) :
    String :=
  d.endpoint ++ uuid

/-- Embedding of `draftContentAPI.FetchDraftContent`, returning the Go pair
`(content []byte, err error)` as `Option Bytes × Option ε`. A failure of
`http.NewRequest` or of `httpClient.Do` is returned as-is; a 404 status
returns `(nil, nil)` before the body is read; otherwise the body is read and
returned, with a read error returned as-is and the partial body discarded. -/
def draftContentAPI.FetchDraftContent {ε : Type} (d : draftContentAPI)
    (env : HttpEnv ε) (uuid : String) : Option Bytes × Option ε :=
  let requestPath := d.fetchRequestPath uuid
  match env.newRequest requestPath with
  | Except.error err => (none, some err)
  | Except.ok _ =>
    match env.doGet requestPath with
    | Except.error err => (none, some err)
    | Except.ok response =>
      if response.statusCode == 404 then
        (none, none)
      else
        match response.bodyRead with
        | (_, some err) => (none, some err)
        | (bytes, none) => (some bytes, none)

/-- A Go `error` value as returned by `IsGTG`: either an error propagated
from the http layer, or a fresh `errors.New` with the given message. -/
inductive GoError (ε : Type) where
  | underlying (err : ε)
  | errorsNew (msg : String)
  deriving DecidableEq

/-- Level of a structured log entry. -/
inductive LogLevel where
  | errorLevel
  | warnLevel
  | infoLevel
  deriving DecidableEq

/-- A structured log entry: level, message and key/value fields. -/
structure LogEntry where
  level : LogLevel
  message : String
  fields : List (String × String)
  deriving DecidableEq

/-- Embedding of `draftContentAPI.IsGTG`: GET the health endpoint; any
status other than 200 yields `errors.New("draft-content-api endpoint is
unhealthy")`; a 200 status yields the fixed string "draft-content-api is
healthy". The second component of the result is the list of log entries the
call emits; this function contains no logging call, so that list is always
empty. -/
def draftContentAPI.IsGTG {ε : Type} (d : draftContentAPI) (env : HttpEnv ε) :
    (String × Option (GoError ε)) × List LogEntry :=
  match env.newRequest d.healthEndpoint with
  | Except.error err => (("", some (GoError.underlying err)), [])
  | Except.ok _ =>
    match env.doGet d.healthEndpoint with
    | Except.error err => (("", some (GoError.underlying err)), [])
    | Except.ok response =>
      if response.statusCode != 200 then
        (("", some (GoError.errorsNew "draft-content-api endpoint is unhealthy")), [])
      else
        (("draft-content-api is healthy", none), [])

end Draft

namespace Draft

/-- A concrete client used to evaluate the embedded functions. -/
def testAPI : draftContentAPI :=
  { endpoint := "http://host/content/", healthEndpoint := "http://host/gtg" }

/-- An environment in which request construction succeeds and every GET is
answered with the given status code and a fully readable body. -/
def envStatus (status : Nat) (body : Bytes) : HttpEnv String :=
  { newRequest := fun _ => Except.ok ()
    doGet := fun _ => Except.ok { statusCode := status, bodyRead := (body, none) } }

/-- An environment in which request construction succeeds but the transport
fails with the given error. -/
def envTransportFail (err : String) : HttpEnv String :=
  { newRequest := fun _ => Except.ok ()
    doGet := fun _ => Except.error err }

/-- An environment in which request construction itself fails. -/
def envBadRequest (err : String) : HttpEnv String :=
  { newRequest := fun _ => Except.error err
    doGet := fun _ => Except.error err }

/-- An environment answering with the given status whose body read fails
with the given error after some bytes were already read. -/
def envBodyReadFail (status : Nat) (partialBody : Bytes) (err : String) :
    HttpEnv String :=
  { newRequest := fun _ => Except.ok ()
    doGet := fun _ =>
      Except.ok { statusCode := status, bodyRead := (partialBody, some err) } }

/-- C1: the claim fails on this source, which contradicts the repository
test TestDraftContentAPI_FetchDraftContentNon200. When the content upstream
responds 500 (neither 2xx nor 404) with a body, `FetchDraftContent` returns
that body together with a nil error, instead of nil content and a non-nil
error describing the status. -/
theorem c1_fetchDraftContent_500_returns_body_and_nil_error :
    testAPI.FetchDraftContent (envStatus 500 [1, 2, 3]) "abc" =
      (some [1, 2, 3], none) := rfl

/-- C2: whenever the upstream answers 404, `FetchDraftContent` returns
`(nil, nil)` — nil content and nil error — whatever the body of the 404
response holds and even if reading that body would fail. -/
theorem c2_fetchDraftContent_404_yields_nil_nil {ε : Type}
    (d : draftContentAPI) (env : HttpEnv ε) (uuid : String)
    (hreq : env.newRequest (d.fetchRequestPath uuid) = Except.ok ())
    (response : HttpResponse ε)
    (hdo : env.doGet (d.fetchRequestPath uuid) = Except.ok response)
    (hstatus : response.statusCode = 404) :
    d.FetchDraftContent env uuid = (none, none) := by
  simp only [draftContentAPI.FetchDraftContent, hreq, hdo, hstatus]
  rfl

/-- Witness for C2 at a concrete environment answering 404. -/
theorem c2_witness :
    testAPI.FetchDraftContent (envStatus 404 [9]) "abc" = (none, none) :=
  c2_fetchDraftContent_404_yields_nil_nil testAPI (envStatus 404 [9]) "abc"
    rfl { statusCode := 404, bodyRead := ([9], none) } rfl rfl

/-- C3: whenever the upstream answers a 2xx status and the body reads fully
as B, `FetchDraftContent` returns `(B, nil)` with B byte-identical to the
upstream body. -/
theorem c3_fetchDraftContent_2xx_returns_body {ε : Type}
    (d : draftContentAPI) (env : HttpEnv ε) (uuid : String)
    (hreq : env.newRequest (d.fetchRequestPath uuid) = Except.ok ())
    (response : HttpResponse ε)
    (hdo : env.doGet (d.fetchRequestPath uuid) = Except.ok response)
    (hstatus : 200 ≤ response.statusCode ∧ response.statusCode < 300)
    (body : Bytes) (hbody : response.bodyRead = (body, none)) :
    d.FetchDraftContent env uuid = (some body, none) := by
  have h404 : (response.statusCode == 404) = false := by
    rw [beq_eq_false_iff_ne]
    omega
  simp only [draftContentAPI.FetchDraftContent, hreq, hdo, h404, hbody]
  rfl

/-- Witness for C3 at a concrete 200 environment with body [10, 20]. -/
theorem c3_witness :
    testAPI.FetchDraftContent (envStatus 200 [10, 20]) "abc" =
      (some [10, 20], none) :=
  c3_fetchDraftContent_2xx_returns_body testAPI (envStatus 200 [10, 20]) "abc"
    rfl { statusCode := 200, bodyRead := ([10, 20], none) } rfl
    (by decide) [10, 20] rfl

/-- C7: when request construction fails, or construction succeeds and the
transport fails (DNS, connection refused, context cancellation),
`FetchDraftContent` returns nil content together with the exact underlying
error value, unchanged and unwrapped. -/
theorem c7_fetchDraftContent_propagates_underlying_error {ε : Type}
    (d : draftContentAPI) (env : HttpEnv ε) (uuid : String) (err : ε)
    (h : env.newRequest (d.fetchRequestPath uuid) = Except.error err ∨
         (env.newRequest (d.fetchRequestPath uuid) = Except.ok () ∧
          env.doGet (d.fetchRequestPath uuid) = Except.error err)) :
    d.FetchDraftContent env uuid = (none, some err) := by
  rcases h with hreq | ⟨hreq, hdo⟩
  · simp only [draftContentAPI.FetchDraftContent, hreq]
  · simp only [draftContentAPI.FetchDraftContent, hreq, hdo]

/-- Witness for C7 at a concrete environment whose transport fails with the
error "connection refused". -/
theorem c7_witness :
    testAPI.FetchDraftContent (envTransportFail "connection refused") "abc" =
      (none, some "connection refused") :=
  c7_fetchDraftContent_propagates_underlying_error testAPI
    (envTransportFail "connection refused") "abc" "connection refused"
    (Or.inr ⟨rfl, rfl⟩)

/-- C10: when the upstream answers a non-404 status and reading the body
fails partway, `FetchDraftContent` returns nil content and the read error;
the partially read bytes are discarded, never returned. -/
theorem c10_fetchDraftContent_body_read_failure {ε : Type}
    (d : draftContentAPI) (env : HttpEnv ε) (uuid : String)
    (hreq : env.newRequest (d.fetchRequestPath uuid) = Except.ok ())
    (response : HttpResponse ε)
    (hdo : env.doGet (d.fetchRequestPath uuid) = Except.ok response)
    (hstatus : response.statusCode ≠ 404)
    (partialBody : Bytes) (err : ε)
    (hbody : response.bodyRead = (partialBody, some err)) :
    d.FetchDraftContent env uuid = (none, some err) := by
  have h404 : (response.statusCode == 404) = false := by
    rw [beq_eq_false_iff_ne]
    exact hstatus
  simp only [draftContentAPI.FetchDraftContent, hreq, hdo, h404, hbody]
  rfl

/-- Witness for C10: a 200 response whose body read fails after bytes
[1, 2] were already read yields nil content and the read error. -/
theorem c10_witness :
    testAPI.FetchDraftContent (envBodyReadFail 200 [1, 2] "unexpected EOF")
        "abc" =
      (none, some "unexpected EOF") :=
  c10_fetchDraftContent_body_read_failure testAPI
    (envBodyReadFail 200 [1, 2] "unexpected EOF") "abc" rfl
    { statusCode := 200, bodyRead := ([1, 2], some "unexpected EOF") } rfl
    (by decide) [1, 2] "unexpected EOF" rfl

/-- C5 counterexample: the claim promises success for every 2xx health
response, but on a 201 response `IsGTG` returns an empty message and the
error `errors.New("draft-content-api endpoint is unhealthy")`: the code
treats only the exact status 200 as healthy. -/
theorem c5_counterexample_201_yields_error :
    testAPI.IsGTG (envStatus 201 []) =
      (("", some (GoError.errorsNew "draft-content-api endpoint is unhealthy")),
        []) := rfl

/-- C5 amended: when the health endpoint responds with status 200 exactly,
`IsGTG` returns the fixed success string "draft-content-api is healthy" —
which names the draft-content-api dependency — together with a nil error,
and emits no log entry. -/
theorem c5_isGTG_200_success_and_no_log {ε : Type}
    (d : draftContentAPI) (env : HttpEnv ε)
    (hreq : env.newRequest d.healthEndpoint = Except.ok ())
    (response : HttpResponse ε)
    (hdo : env.doGet d.healthEndpoint = Except.ok response)
    (hstatus : response.statusCode = 200) :
    d.IsGTG env = (("draft-content-api is healthy", none), []) := by
  simp only [draftContentAPI.IsGTG, hreq, hdo, hstatus]
  rfl

/-- Witness for the amended C5 at a concrete 200 environment. -/
theorem c5_witness :
    testAPI.IsGTG (envStatus 200 []) =
      (("draft-content-api is healthy", none), []) :=
  c5_isGTG_200_success_and_no_log testAPI (envStatus 200 []) rfl
    { statusCode := 200, bodyRead := ([], none) } rfl rfl

/-- C6: the code contradicts the claim and its own test
TestDraftContentAPI_IsGTGFailure503. On a 503 health response `IsGTG` does
return a non-nil error, but it emits no log entry at all — the emitted log
list is empty rather than holding one error-level entry with message
"GTG for draft-content-public-read returned a non-200 HTTP status" and
fields status and healthEndpoint — and the error it returns reads
"draft-content-api endpoint is unhealthy". -/
theorem c6_isGTG_503_returns_error_but_emits_no_log :
    testAPI.IsGTG (envStatus 503 []) =
      (("", some (GoError.errorsNew "draft-content-api endpoint is unhealthy")),
        []) ∧
    (testAPI.IsGTG (envStatus 503 [])).2.length = 0 := ⟨rfl, rfl⟩

/-- Appending a slash yields a string that ends in a slash. -/
theorem hasSuffixSlash_append_slash (s : String) :
    hasSuffixSlash (s ++ "/") = true := by
  unfold hasSuffixSlash
  rw [show (s ++ "/").data = s.data ++ ['/'] from String.data_append s "/",
    List.getLast?_concat s.data]
  rfl

/-- Normalisation leaves an endpoint that already ends in a slash alone. -/
theorem normalizeEndpoint_of_suffix {e : String}
    (h : hasSuffixSlash e = true) : normalizeEndpoint e = e := by
  simp [normalizeEndpoint, h]

/-- Normalisation appends exactly one slash when none is present. -/
theorem normalizeEndpoint_of_no_suffix {e : String}
    (h : hasSuffixSlash e = false) : normalizeEndpoint e = e ++ "/" := by
  simp [normalizeEndpoint, h]

/-- A normalised endpoint always ends in a slash. -/
theorem hasSuffixSlash_normalizeEndpoint (e : String) :
    hasSuffixSlash (normalizeEndpoint e) = true := by
  cases h : hasSuffixSlash e
  · rw [normalizeEndpoint_of_no_suffix h]
    exact hasSuffixSlash_append_slash e
  · rw [normalizeEndpoint_of_suffix h]
    exact h

/-- C4: construction returns an error — and hence no client — exactly when
the client's base endpoint URL (the endpoint argument normalised with a
trailing slash, which is the URL the constructor stores and validates) lacks
an http:// or https:// scheme or fails request-URI parsing. The validation
is a pure function of the endpoint string and the parse oracle: it consults
no HTTP oracle and is evaluated at construction, so a failure never waits
for first use. -/
theorem c4_newContentAPI_error_iff_invalid (parseOk : Commons.ParseOracle)
    (endpoint healthEndpoint : String) :
    (∃ err, NewContentAPI parseOk endpoint healthEndpoint = Except.error err) ↔
      (("http://".data.isPrefixOf (normalizeEndpoint endpoint).data = false ∧
        "https://".data.isPrefixOf (normalizeEndpoint endpoint).data = false) ∨
       parseOk (normalizeEndpoint endpoint) = false) := by
  simp only [NewContentAPI, draftContentAPI.IsValid, Commons.ValidateEndpoint]
  cases h1 : "http://".data.isPrefixOf (normalizeEndpoint endpoint).data <;>
    cases h2 : "https://".data.isPrefixOf (normalizeEndpoint endpoint).data <;>
      cases h3 : parseOk (normalizeEndpoint endpoint) <;>
        simp [h1, h2, h3]

/-- Parse oracle that accepts every string, used for concrete evaluation. -/
def parseAll : Commons.ParseOracle := fun _ => true

/-- C9 counterexample: the endpoint "http://h/" already ends in a slash and
is accepted; constructing from it and from it plus one more trailing slash
both succeed, yet the two clients carry different endpoints
("http://h/" against "http://h//"), so the claimed equality of endpoints for
e and e ++ "/" fails whenever e already ends in "/". -/
theorem c9_counterexample_double_slash :
    NewContentAPI parseAll "http://h/" "hp" =
      Except.ok { endpoint := "http://h/", healthEndpoint := "hp" } ∧
    NewContentAPI parseAll ("http://h/" ++ "/") "hp" =
      Except.ok { endpoint := "http://h//", healthEndpoint := "hp" } ∧
    draftContentAPI.Endpoint
        { endpoint := "http://h/", healthEndpoint := "hp" } ≠
      draftContentAPI.Endpoint
        { endpoint := "http://h//", healthEndpoint := "hp" } :=
  ⟨rfl, rfl, by decide⟩

/-- C9 amended: for every endpoint accepted by NewContentAPI, the client
endpoint ends in "/", the trailing slash being appended exactly when
missing; consequently, for an endpoint e with no trailing slash,
constructing from e and from e ++ "/" yields the same client (for an e that
already ends in "/", the counterexample shows the endpoints differ); and
FetchDraftContent builds its request URL as this normalised endpoint
concatenated with the identifier. -/
theorem c9_endpoint_normalisation (parseOk : Commons.ParseOracle)
    (e h : String) (a : draftContentAPI)
    (hok : NewContentAPI parseOk e h = Except.ok a) :
    hasSuffixSlash a.Endpoint = true ∧
    (hasSuffixSlash e = true → a.Endpoint = e) ∧
    (hasSuffixSlash e = false →
      a.Endpoint = e ++ "/" ∧
      NewContentAPI parseOk (e ++ "/") h = Except.ok a) ∧
    (∀ uuid, a.fetchRequestPath uuid = a.Endpoint ++ uuid) := by
  unfold NewContentAPI at hok
  simp only [draftContentAPI.IsValid] at hok
  cases hval : Commons.ValidateEndpoint parseOk (normalizeEndpoint e) with
  | some err =>
    rw [hval] at hok
    exact absurd hok (by simp)
  | none =>
    rw [hval] at hok
    injection hok with ha
    subst ha
    refine ⟨hasSuffixSlash_normalizeEndpoint e, ?_, ?_, fun uuid => rfl⟩
    · intro hsuf
      exact normalizeEndpoint_of_suffix hsuf
    · intro hsuf
      have hne : normalizeEndpoint e = e ++ "/" :=
        normalizeEndpoint_of_no_suffix hsuf
      refine ⟨hne, ?_⟩
      unfold NewContentAPI
      simp only [draftContentAPI.IsValid]
      rw [normalizeEndpoint_of_suffix (hasSuffixSlash_append_slash e), ← hne,
        hval]

/-- Witness for the amended C9, at the accepting oracle and the endpoint
"http://h", which carries no trailing slash. -/
theorem c9_witness :
    hasSuffixSlash (draftContentAPI.Endpoint
      { endpoint := "http://h/", healthEndpoint := "hp" }) = true ∧
    (hasSuffixSlash "http://h" = true →
      draftContentAPI.Endpoint
        { endpoint := "http://h/", healthEndpoint := "hp" } = "http://h") ∧
    (hasSuffixSlash "http://h" = false →
      draftContentAPI.Endpoint
          { endpoint := "http://h/", healthEndpoint := "hp" } =
        "http://h" ++ "/" ∧
      NewContentAPI parseAll ("http://h" ++ "/") "hp" =
        Except.ok { endpoint := "http://h/", healthEndpoint := "hp" }) ∧
    (∀ uuid, draftContentAPI.fetchRequestPath
        { endpoint := "http://h/", healthEndpoint := "hp" } uuid =
      draftContentAPI.Endpoint
        { endpoint := "http://h/", healthEndpoint := "hp" } ++ uuid) :=
  c9_endpoint_normalisation parseAll "http://h" "hp"
    { endpoint := "http://h/", healthEndpoint := "hp" } rfl

/-- Modelled from the spec: the error values of the fetch described by the
spec and exercised by the repository test file draft_content_test.go. The
package-level sentinel `ErrDraftNotMappable` and the status handling that
produces it are missing from the source under src (only the tests refer to
them). An error is either an error propagated from the http layer, the
sentinel, or a fresh error whose message embeds the numeric status. -/
inductive specFetchError (ε : Type) where
  | underlying (err : ε)
  | errDraftNotMappable
  | statusError (msg : String)
  deriving DecidableEq

/-- Modelled from the spec: the sentinel error value ErrDraftNotMappable,
a single package-level error value. -/
def ErrDraftNotMappable {ε : Type} : specFetchError ε :=
  specFetchError.errDraftNotMappable

/-- Modelled from the spec: Go errors.Is for the error values above — an
identity check on the error value that performs no matching on message
strings. -/
def errorsIs {ε : Type} [DecidableEq ε] (err target : specFetchError ε) :
    Bool :=
  err == target

/-- Modelled from the spec: FetchDraftContent as the spec and the repository
tests describe it — a 404 status yields nil content and nil error, the
"unprocessable/not mappable" status 422 yields the sentinel
ErrDraftNotMappable, any other non-2xx status yields an error embedding the
numeric status, and a 2xx status yields the response body. -/
def draftContentAPI.fetchDraftContentSpec {ε : Type} (d : draftContentAPI)
    (env : HttpEnv ε) (uuid : String) :
    Option Bytes × Option (specFetchError ε) :=
  let requestPath := d.fetchRequestPath uuid
  match env.newRequest requestPath with
  | Except.error err => (none, some (specFetchError.underlying err))
  | Except.ok _ =>
    match env.doGet requestPath with
    | Except.error err => (none, some (specFetchError.underlying err))
    | Except.ok response =>
      if response.statusCode == 404 then
        (none, none)
      else if response.statusCode == 422 then
        (none, some ErrDraftNotMappable)
      else if response.statusCode < 200 ∨ 300 ≤ response.statusCode then
        (none, some (specFetchError.statusError
          ("error in draft content retrival status=" ++
            toString response.statusCode)))
      else
        match response.bodyRead with
        | (_, some err) => (none, some (specFetchError.underlying err))
        | (bytes, none) => (some bytes, none)

/-- C8 (on the spec-modelled fetch): a 422 response yields nil content and
an error equal to the sentinel ErrDraftNotMappable; errors.Is succeeds on
that error against the sentinel, and fails against the sentinel for every
status-message error whatever its message text, so the sentinel is
recognised by identity, not by string matching. -/
theorem c8_fetch_422_yields_errDraftNotMappable {ε : Type} [DecidableEq ε]
    (d : draftContentAPI) (env : HttpEnv ε) (uuid : String)
    (hreq : env.newRequest (d.fetchRequestPath uuid) = Except.ok ())
    (response : HttpResponse ε)
    (hdo : env.doGet (d.fetchRequestPath uuid) = Except.ok response)
    (hstatus : response.statusCode = 422) :
    d.fetchDraftContentSpec env uuid = (none, some ErrDraftNotMappable) ∧
    errorsIs ((d.fetchDraftContentSpec env uuid).2.getD ErrDraftNotMappable)
      ErrDraftNotMappable = true ∧
    (∀ msg : String,
      errorsIs (specFetchError.statusError msg : specFetchError ε)
        ErrDraftNotMappable = false) := by
  have hfetch : d.fetchDraftContentSpec env uuid =
      (none, some ErrDraftNotMappable) := by
    simp only [draftContentAPI.fetchDraftContentSpec, hreq, hdo, hstatus]
    rfl
  refine ⟨hfetch, ?_, fun msg => rfl⟩
  rw [hfetch]
  rfl

/-- Witness for C8 at a concrete environment answering 422. -/
theorem c8_witness :
    testAPI.fetchDraftContentSpec (envStatus 422 [5]) "abc" =
      (none, some ErrDraftNotMappable) ∧
    errorsIs ((testAPI.fetchDraftContentSpec (envStatus 422 [5]) "abc").2.getD
      ErrDraftNotMappable) ErrDraftNotMappable = true ∧
    (∀ msg : String,
      errorsIs (specFetchError.statusError msg : specFetchError String)
        ErrDraftNotMappable = false) :=
  c8_fetch_422_yields_errDraftNotMappable testAPI (envStatus 422 [5]) "abc"
    rfl { statusCode := 422, bodyRead := ([5], none) } rfl rfl

end Draft
